import Mathlib

/-!
# Verification of the prompt-manager sync engine

Shallow embedding of the local-first synchronization core of the
prompt-manager repository:

* the entity data model (`src/src/sync/types.ts`),
* the in-memory view / Zustand store (`src/unnamed/part_003`),
* the durable Dexie store (`src/src/sync/database.ts`),
* the sync engine's push path (`src/src/sync/engine.ts`),
* the mock server's `/api/sync` and `/api/mutations` handlers
  (`src/unnamed/part_002`).

JavaScript `Map<string, E>` objects are embedded as functions
`String → Option E`; impure inputs (`uuid()`, `new Date().toISOString()`,
`navigator.onLine`, the fetch outcome) are passed as explicit parameters.
The optional boolean `isDeleted?` field is embedded as a `Bool` because
every read in the source is a truthiness test, which identifies `undefined`
with `false`.
-/

namespace PromptManager

/-! ## Entity data model (src/src/sync/types.ts) -/

/-- `PromptEntity` from types.ts: envelope fields plus title, content,
category, isFavorite, optional groupId. -/
structure PromptEntity where
  id : String
  createdAt : String
  updatedAt : String
  syncId : Option Nat
  isDeleted : Bool
  title : String
  content : String
  category : String
  isFavorite : Bool
  groupId : Option String
deriving DecidableEq, Repr

/-- `PromptVersionEntity` from types.ts. -/
structure PromptVersionEntity where
  id : String
  createdAt : String
  updatedAt : String
  syncId : Option Nat
  isDeleted : Bool
  promptId : String
  content : String
  note : Option String
deriving DecidableEq, Repr

/-- `GroupEntity` from types.ts. -/
structure GroupEntity where
  id : String
  createdAt : String
  updatedAt : String
  syncId : Option Nat
  isDeleted : Bool
  name : String
  color : String
deriving DecidableEq, Repr

/-- `MutationOperation` from types.ts. -/
inductive MutationOperation
  | create
  | update
  | delete
deriving DecidableEq, Repr

/-- `EntityType` discriminator from types.ts
(`prompt`, `prompt_version`, `group`). -/
inductive EntityType
  | prompt
  | promptVersion
  | group
deriving DecidableEq, Repr

/-- `SyncStatus` from types.ts. -/
inductive SyncStatus
  | idle
  | syncing
  | pushing
  | error
  | offline
deriving DecidableEq, Repr

/-! ## Functional string-keyed maps (embedding of JS `Map`) -/

/-- A JS `Map<string, E>` as a function. -/
def EMap (E : Type) : Type := String → Option E

/-- `Map.set`. -/
def mapSet {E : Type} (m : EMap E) (k : String) (v : E) : EMap E :=
  fun x => if x = k then some v else m x

theorem mapSet_same {E : Type} (m : EMap E) (k : String) (v : E) :
    mapSet m k v k = some v := by
  simp [mapSet]

theorem mapSet_other {E : Type} (m : EMap E) (k x : String) (v : E) (h : x ≠ k) :
    mapSet m k v x = m x := by
  simp [mapSet, h]

/-! ## Upsert and soft-delete phases of `_applyServerChanges`
(src/unnamed/part_003, lines 303-357)

Each entity kind is processed as `created.forEach(set)`, then
`updated.forEach(set)`, then `deleted.forEach(flag-if-present)`.
The helpers are generic in the entity type, parametrised by the `id`
projection and by the flagging function `{ ...existing, isDeleted: true }`. -/

/-- `list.forEach((e) => map.set(e.id, e))` — the upsert phase. -/
def applyUpserts {E : Type} (getId : E → String) (m : EMap E) (l : List E) : EMap E :=
  l.foldl (fun acc e => mapSet acc (getId e) e) m

/-- `ids.forEach((id) => { const existing = map.get(id); if (existing)
map.set(id, flag(existing)) })` — the soft-delete phase. -/
def applyDeletes {E : Type} (flag : E → E) (m : EMap E) (ids : List String) : EMap E :=
  ids.foldl
    (fun acc i =>
      match acc i with
      | some e => mapSet acc i (flag e)
      | none => acc)
    m

/-- The last entity of `l` whose id is `x`, if any: the survivor of the
upsert phase at key `x`. -/
def lastUpsert {E : Type} (getId : E → String) : List E → String → Option E
  | [], _ => none
  | e :: l, x =>
    match lastUpsert getId l x with
    | some e' => some e'
    | none => if getId e = x then some e else none

theorem applyUpserts_eq {E : Type} (getId : E → String) (l : List E)
    (m : EMap E) (x : String) :
    applyUpserts getId m l x =
      match lastUpsert getId l x with
      | some e => some e
      | none => m x := by
  induction l generalizing m with
  | nil => simp [applyUpserts, lastUpsert]
  | cons e l ih =>
    show applyUpserts getId (mapSet m (getId e) e) l x = _
    rw [ih]
    cases h : lastUpsert getId l x with
    | some e' => simp [lastUpsert, h]
    | none =>
      by_cases hx : getId e = x
      · subst hx
        simp [lastUpsert, h, mapSet]
      · have hx' : x ≠ getId e := fun hc => hx hc.symm
        simp [lastUpsert, h, mapSet_other _ _ _ _ hx', hx]

theorem applyDeletes_eq {E : Type} (flag : E → E)
    (hflag : ∀ e, flag (flag e) = flag e) (ids : List String)
    (m : EMap E) (x : String) :
    applyDeletes flag m ids x =
      match m x with
      | some e => if x ∈ ids then some (flag e) else some e
      | none => m x := by
  induction ids generalizing m with
  | nil =>
    show m x = _
    cases m x <;> simp
  | cons i ids ih =>
    show applyDeletes flag
        (match m i with
         | some e => mapSet m i (flag e)
         | none => m) ids x = _
    cases hmi : m i with
    | none =>
      show applyDeletes flag m ids x = _
      rw [ih]
      cases hmx : m x with
      | none => simp
      | some e =>
        have hx : x ≠ i := by
          intro h
          rw [h, hmi] at hmx
          cases hmx
        simp [List.mem_cons, hx]
    | some ei =>
      show applyDeletes flag (mapSet m i (flag ei)) ids x = _
      rw [ih]
      by_cases hx : x = i
      · subst hx
        rw [mapSet_same, hmi]
        by_cases hmem : x ∈ ids <;> simp [hmem, hflag]
      · rw [mapSet_other _ _ _ _ hx]
        cases hmx : m x with
        | none => simp
        | some e => simp [List.mem_cons, hx]

/-- Net pointwise effect of one kind's portion of `_applyServerChanges`:
upsert `created`, then `updated`, then flag `deleted` ids. -/
theorem applyKind_eq {E : Type} (getId : E → String) (flag : E → E)
    (hflag : ∀ e, flag (flag e) = flag e)
    (created updated : List E) (deleted : List String)
    (m : EMap E) (x : String) :
    applyDeletes flag (applyUpserts getId (applyUpserts getId m created) updated)
        deleted x =
      match lastUpsert getId (created ++ updated) x with
      | some e => if x ∈ deleted then some (flag e) else some e
      | none =>
        match m x with
        | some e => if x ∈ deleted then some (flag e) else some e
        | none => none := by
  have happ : ∀ (l1 l2 : List E) (m' : EMap E),
      applyUpserts getId (applyUpserts getId m' l1) l2 =
        applyUpserts getId m' (l1 ++ l2) := by
    intro l1 l2 m'
    simp [applyUpserts, List.foldl_append]
  rw [happ, applyDeletes_eq flag hflag, applyUpserts_eq]
  cases h : lastUpsert getId (created ++ updated) x with
  | some e => rfl
  | none => cases m x <;> rfl

/-! ## Sync protocol and store state
(src/src/sync/types.ts, src/unnamed/part_003) -/

/-- `EntityDelta<T>` from types.ts: per-kind `{created, updated, deleted}`. -/
structure EntityDelta (E : Type) where
  created : List E
  updated : List E
  deleted : List String
deriving DecidableEq

/-- `SyncPacket` from types.ts, with the `changes` record inlined. -/
structure SyncPacket where
  syncId : Nat
  timestamp : String
  hasMore : Bool
  prompts : EntityDelta PromptEntity
  promptVersions : EntityDelta PromptVersionEntity
  groups : EntityDelta GroupEntity
deriving DecidableEq

/-- `SyncState` from types.ts. `pendingMutationsCount` is a JS number
that the code decrements, so it is embedded as `Int`. -/
structure SyncState where
  status : SyncStatus
  lastSyncedAt : Option String
  lastSyncId : Nat
  pendingMutationsCount : Int
  isOnline : Bool
  lastError : Option String
deriving DecidableEq

/-- The data portion of the Zustand store (part_003 `StoreState`):
three entity maps plus the sync state. -/
structure StoreState where
  prompts : EMap PromptEntity
  promptVersions : EMap PromptVersionEntity
  groups : EMap GroupEntity
  syncState : SyncState

/-- `{ ...existing, isDeleted: true }` in `_applyServerChanges`. -/
def PromptEntity.flagDeleted (e : PromptEntity) : PromptEntity :=
  { e with isDeleted := true }

/-- `{ ...existing, isDeleted: true }` for prompt versions. -/
def PromptVersionEntity.flagDeleted (e : PromptVersionEntity) : PromptVersionEntity :=
  { e with isDeleted := true }

/-- `{ ...existing, isDeleted: true }` for groups. -/
def GroupEntity.flagDeleted (e : GroupEntity) : GroupEntity :=
  { e with isDeleted := true }

/-- The in-memory (`set`-callback) part of `_applyServerChanges`
(part_003 lines 303-349): for each kind upsert `created` then `updated`,
then flag each `deleted` id that is present, and overwrite
`lastSyncId`/`lastSyncedAt` in the sync state with the packet's values.
Note that `lastSyncId := packet.syncId` is unconditional. -/
def applyServerChangesView (s : StoreState) (p : SyncPacket) : StoreState :=
  { prompts :=
      applyDeletes PromptEntity.flagDeleted
        (applyUpserts PromptEntity.id
          (applyUpserts PromptEntity.id s.prompts p.prompts.created)
          p.prompts.updated)
        p.prompts.deleted
    promptVersions :=
      applyDeletes PromptVersionEntity.flagDeleted
        (applyUpserts PromptVersionEntity.id
          (applyUpserts PromptVersionEntity.id s.promptVersions p.promptVersions.created)
          p.promptVersions.updated)
        p.promptVersions.deleted
    groups :=
      applyDeletes GroupEntity.flagDeleted
        (applyUpserts GroupEntity.id
          (applyUpserts GroupEntity.id s.groups p.groups.created)
          p.groups.updated)
        p.groups.deleted
    syncState :=
      { s.syncState with
          lastSyncId := p.syncId
          lastSyncedAt := some p.timestamp } }

theorem promptFlag_idem (e : PromptEntity) :
    e.flagDeleted.flagDeleted = e.flagDeleted := rfl

theorem versionFlag_idem (e : PromptVersionEntity) :
    e.flagDeleted.flagDeleted = e.flagDeleted := rfl

theorem groupFlag_idem (e : GroupEntity) :
    e.flagDeleted.flagDeleted = e.flagDeleted := rfl

/-- Applying one kind's deltas twice gives the same map as applying
them once. -/
theorem applyKind_idem {E : Type} (getId : E → String) (flag : E → E)
    (hflag : ∀ e, flag (flag e) = flag e)
    (created updated : List E) (deleted : List String) (m : EMap E) :
    applyDeletes flag
        (applyUpserts getId
          (applyUpserts getId
            (applyDeletes flag
              (applyUpserts getId (applyUpserts getId m created) updated)
              deleted)
            created)
          updated)
        deleted =
      applyDeletes flag (applyUpserts getId (applyUpserts getId m created) updated)
        deleted := by
  funext x
  rw [applyKind_eq getId flag hflag, applyKind_eq getId flag hflag]
  cases hu : lastUpsert getId (created ++ updated) x with
  | some e => rfl
  | none =>
    cases m x with
    | none => rfl
    | some e =>
      by_cases hd : x ∈ deleted <;> simp [hd, hflag]

/-! ## Pending mutations and the durable store
(src/src/sync/types.ts, src/src/sync/database.ts) -/

/-- `Partial<PromptEntity>` — a JS partial: each field is present or
absent. Fields whose base type is already optional (`syncId`, `groupId`)
are collapsed to one `Option` layer, since spreading an explicitly
`undefined` field is indistinguishable from leaving it absent for every
read in the source. -/
structure PromptPatch where
  id : Option String
  createdAt : Option String
  updatedAt : Option String
  syncId : Option Nat
  isDeleted : Option Bool
  title : Option String
  content : Option String
  category : Option String
  isFavorite : Option Bool
  groupId : Option String
deriving DecidableEq, Repr

/-- `Partial<GroupEntity>`. -/
structure GroupPatch where
  id : Option String
  createdAt : Option String
  updatedAt : Option String
  syncId : Option Nat
  isDeleted : Option Bool
  name : Option String
  color : Option String
deriving DecidableEq, Repr

/-- `{ ...existing, ...updates }` for a prompt. -/
def mergePrompt (e : PromptEntity) (u : PromptPatch) : PromptEntity :=
  { id := u.id.getD e.id
    createdAt := u.createdAt.getD e.createdAt
    updatedAt := u.updatedAt.getD e.updatedAt
    syncId := u.syncId.orElse fun _ => e.syncId
    isDeleted := u.isDeleted.getD e.isDeleted
    title := u.title.getD e.title
    content := u.content.getD e.content
    category := u.category.getD e.category
    isFavorite := u.isFavorite.getD e.isFavorite
    groupId := u.groupId.orElse fun _ => e.groupId }

/-- `{ ...existing, ...updates }` for a group. -/
def mergeGroup (e : GroupEntity) (u : GroupPatch) : GroupEntity :=
  { id := u.id.getD e.id
    createdAt := u.createdAt.getD e.createdAt
    updatedAt := u.updatedAt.getD e.updatedAt
    syncId := u.syncId.orElse fun _ => e.syncId
    isDeleted := u.isDeleted.getD e.isDeleted
    name := u.name.getD e.name
    color := u.color.getD e.color }

/-- The `payload` of a pending mutation: a full entity for `create`
(the store queues the whole freshly minted entity), a partial for
`update`; `delete` mutations carry `none` at the `PendingMutation`
level. -/
inductive MutationPayload
  | promptFull (p : PromptEntity)
  | versionFull (v : PromptVersionEntity)
  | groupFull (g : GroupEntity)
  | promptPatch (u : PromptPatch)
  | groupPatch (u : GroupPatch)
deriving DecidableEq, Repr

/-- `PendingMutation` from types.ts. -/
structure PendingMutation where
  id : String
  operation : MutationOperation
  entityType : EntityType
  entityId : String
  payload : Option MutationPayload
  timestamp : String
  retryCount : Nat
  lastError : Option String
deriving DecidableEq, Repr

/-- `SyncMetadata` from types.ts (the singleton record keyed
`"sync_metadata"`; the constant key is left implicit). -/
structure SyncMetadata where
  lastSyncId : Nat
  lastSyncedAt : Option String
  clientId : String
deriving DecidableEq, Repr

/-- The Dexie database of database.ts: three entity tables, the
pending-mutation table and the metadata singleton. -/
structure DbState where
  prompts : EMap PromptEntity
  promptVersions : EMap PromptVersionEntity
  groups : EMap GroupEntity
  pendingMutations : List PendingMutation
  syncMetadata : Option SyncMetadata

/-- Patch the record at `id` if it exists, otherwise do nothing. This is
both Dexie `Table.update(id, patch)` and the view-side
`const existing = map.get(id); if (existing) map.set(id, patch(existing))`
pattern of `deletePrompt` / `deleteGroup`. -/
def updateIfPresent {E : Type} (m : EMap E) (id : String) (patch : E → E) : EMap E :=
  match m id with
  | some e => mapSet m id (patch e)
  | none => m

/-- Dexie `Table.put` on the pending-mutations table
(`db.addPendingMutation`): replace the record with the same primary key,
or append. -/
def putMutation (l : List PendingMutation) (m : PendingMutation) : List PendingMutation :=
  if l.any fun x => x.id = m.id then
    l.map fun x => if x.id = m.id then m else x
  else
    l ++ [m]

/-- `db.removePendingMutation` (`Table.delete` by primary key). -/
def dbRemovePendingMutation (d : DbState) (mutationId : String) : DbState :=
  { d with pendingMutations := d.pendingMutations.filter fun m => m.id ≠ mutationId }

/-- `db.updatePendingMutation(id, {retryCount, lastError})`. -/
def dbUpdatePendingMutation (d : DbState) (mutationId : String)
    (newRetryCount : Nat) (err : String) : DbState :=
  { d with
      pendingMutations :=
        d.pendingMutations.map fun x =>
          if x.id = mutationId then
            { x with retryCount := newRetryCount, lastError := some err }
          else x }

/-- Stable insertion of a mutation into a timestamp-sorted list. -/
def insertByTimestamp (m : PendingMutation) : List PendingMutation → List PendingMutation
  | [] => [m]
  | x :: xs =>
    if x.timestamp ≤ m.timestamp then x :: insertByTimestamp m xs
    else m :: x :: xs

/-- `db.getPendingMutations()` — the table ordered ascending by the
`timestamp` index. -/
def getPendingMutations (d : DbState) : List PendingMutation :=
  d.pendingMutations.foldr insertByTimestamp []

/-! ## The client: store + durable store + engine bookkeeping -/

/-- Mutable fields of the `SyncEngine` class (engine.ts):
`isRunning`, the `isPushing` latch, and the pending push timer
(embedded as the delay it was armed with, `none` when unarmed). -/
structure EngineState where
  isRunning : Bool
  isPushing : Bool
  pushTimerDelay : Option Nat

/-- `SyncEngineConfig` from types.ts. -/
structure SyncEngineConfig where
  apiBaseUrl : Option String
  pollInterval : Nat
  maxRetries : Nat
  retryBackoff : Nat
  initialRetryDelay : Nat
  clientId : String
deriving DecidableEq, Repr

/-- `DEFAULT_CONFIG` from engine.ts. -/
def DEFAULT_CONFIG : SyncEngineConfig :=
  { apiBaseUrl := some "http://localhost:3001/api"
    pollInterval := 5000
    maxRetries := 5
    retryBackoff := 2
    initialRetryDelay := 1000
    clientId := "" }

/-- Everything one browser client owns: the Zustand store, the Dexie
database and the engine's own fields. -/
structure ClientState where
  store : StoreState
  db : DbState
  engine : EngineState

/-- Callbacks fired by the engine (`SyncEngineEvents`), recorded as an
event trace. -/
inductive EngineEvent
  | statusChange (status : SyncStatus)
  | syncComplete (syncId : Nat)
  | syncError (message : String)
  | mutationsPushed (count : Nat)
  | mutationFailed (mutationId : String) (error : String)
  | onlineChange (isOnline : Bool)
deriving DecidableEq, Repr

/-- `updateStatus` (engine.ts lines 348-351): write the status into the
store's sync state; the accompanying `onStatusChange` callback is
recorded by the callers that use it. -/
def setStatus (st : ClientState) (status : SyncStatus) : ClientState :=
  { st with store := { st.store with
      syncState := { st.store.syncState with status := status } } }

/-- `queueMutation` (part_003 lines 80-102): persist the mutation record
and bump `pendingMutationsCount` by one. The fresh `uuid()` and `now()`
are the `mutId` and `t` parameters. -/
def queueMutation (st : ClientState) (mutId : String) (operation : MutationOperation)
    (entityType : EntityType) (entityId : String) (payload : Option MutationPayload)
    (t : String) : ClientState :=
  let m : PendingMutation :=
    { id := mutId
      operation := operation
      entityType := entityType
      entityId := entityId
      payload := payload
      timestamp := t
      retryCount := 0
      lastError := none }
  { st with
      db := { st.db with pendingMutations := putMutation st.db.pendingMutations m }
      store := { st.store with
        syncState := { st.store.syncState with
          pendingMutationsCount := st.store.syncState.pendingMutationsCount + 1 } } }

/-- Fields of `createPrompt`'s argument
(`Omit<PromptEntity, 'id' | 'type' | 'createdAt' | 'updatedAt' | 'syncId'>`). -/
structure PromptCreateData where
  title : String
  content : String
  category : String
  isFavorite : Bool
  groupId : Option String
deriving DecidableEq, Repr

/-- `createPrompt` (part_003 lines 129-153): mint the entity, set it in
the view, `db.prompts.put` it, and queue a `create` mutation carrying the
full entity. -/
def createPrompt (st : ClientState) (data : PromptCreateData)
    (newId mutId t : String) : ClientState :=
  let prompt : PromptEntity :=
    { id := newId
      createdAt := t
      updatedAt := t
      syncId := none
      isDeleted := false
      title := data.title
      content := data.content
      category := data.category
      isFavorite := data.isFavorite
      groupId := data.groupId }
  queueMutation
    { st with
        store := { st.store with prompts := mapSet st.store.prompts newId prompt }
        db := { st.db with prompts := mapSet st.db.prompts newId prompt } }
    mutId .create .prompt newId (some (.promptFull prompt)) t

/-- `updatePrompt` (part_003 lines 155-177): no-op when the id is absent
from the view; otherwise merge, touch `updatedAt`, set view and store,
and queue an `update` mutation carrying the patch. -/
def updatePrompt (st : ClientState) (id : String) (updates : PromptPatch)
    (mutId t : String) : ClientState :=
  match st.store.prompts id with
  | none => st
  | some existing =>
    let updated : PromptEntity := { mergePrompt existing updates with updatedAt := t }
    queueMutation
      { st with
          store := { st.store with prompts := mapSet st.store.prompts id updated }
          db := { st.db with prompts := mapSet st.db.prompts id updated } }
      mutId .update .prompt id (some (.promptPatch updates)) t

/-- `deletePrompt` (part_003 lines 179-195): flag the view record when it
exists, `db.prompts.update(id, {isDeleted: true, updatedAt: now()})`, and
queue a `delete` mutation — the queueing is unconditional in the source. -/
def deletePrompt (st : ClientState) (id : String) (mutId t : String) : ClientState :=
  let viewPrompts :=
    updateIfPresent st.store.prompts id
      fun existing => { existing with isDeleted := true, updatedAt := t }
  queueMutation
    { st with
        store := { st.store with prompts := viewPrompts }
        db := { st.db with
          prompts := updateIfPresent st.db.prompts id
            fun e => { e with isDeleted := true, updatedAt := t } } }
    mutId .delete .prompt id none t

/-- Fields of `createPromptVersion`'s argument. -/
structure VersionCreateData where
  promptId : String
  content : String
  note : Option String
deriving DecidableEq, Repr

/-- `createPromptVersion` (part_003 lines 201-225). -/
def createPromptVersion (st : ClientState) (data : VersionCreateData)
    (newId mutId t : String) : ClientState :=
  let version : PromptVersionEntity :=
    { id := newId
      createdAt := t
      updatedAt := t
      syncId := none
      isDeleted := false
      promptId := data.promptId
      content := data.content
      note := data.note }
  queueMutation
    { st with
        store := { st.store with
          promptVersions := mapSet st.store.promptVersions newId version }
        db := { st.db with
          promptVersions := mapSet st.db.promptVersions newId version } }
    mutId .create .promptVersion newId (some (.versionFull version)) t

/-- Fields of `createGroup`'s argument. -/
structure GroupCreateData where
  name : String
  color : String
deriving DecidableEq, Repr

/-- `createGroup` (part_003 lines 231-255). -/
def createGroup (st : ClientState) (data : GroupCreateData)
    (newId mutId t : String) : ClientState :=
  let group : GroupEntity :=
    { id := newId
      createdAt := t
      updatedAt := t
      syncId := none
      isDeleted := false
      name := data.name
      color := data.color }
  queueMutation
    { st with
        store := { st.store with groups := mapSet st.store.groups newId group }
        db := { st.db with groups := mapSet st.db.groups newId group } }
    mutId .create .group newId (some (.groupFull group)) t

/-- `updateGroup` (part_003 lines 257-279). -/
def updateGroup (st : ClientState) (id : String) (updates : GroupPatch)
    (mutId t : String) : ClientState :=
  match st.store.groups id with
  | none => st
  | some existing =>
    let updated : GroupEntity := { mergeGroup existing updates with updatedAt := t }
    queueMutation
      { st with
          store := { st.store with groups := mapSet st.store.groups id updated }
          db := { st.db with groups := mapSet st.db.groups id updated } }
      mutId .update .group id (some (.groupPatch updates)) t

/-- `deleteGroup` (part_003 lines 281-297). -/
def deleteGroup (st : ClientState) (id : String) (mutId t : String) : ClientState :=
  let viewGroups :=
    updateIfPresent st.store.groups id
      fun existing => { existing with isDeleted := true, updatedAt := t }
  queueMutation
    { st with
        store := { st.store with groups := viewGroups }
        db := { st.db with
          groups := updateIfPresent st.db.groups id
            fun e => { e with isDeleted := true, updatedAt := t } }
          }
    mutId .delete .group id none t

/-- `db.applyEntityChanges` (database.ts lines 124-190): per kind,
`bulkPut(created)`, `bulkPut(updated)`, then `update(id, {isDeleted:
true})` for each deleted id (a no-op for an absent id). -/
def dbApplyEntityChanges (d : DbState) (p : SyncPacket) : DbState :=
  { d with
      prompts :=
        applyDeletes PromptEntity.flagDeleted
          (applyUpserts PromptEntity.id
            (applyUpserts PromptEntity.id d.prompts p.prompts.created)
            p.prompts.updated)
          p.prompts.deleted
      promptVersions :=
        applyDeletes PromptVersionEntity.flagDeleted
          (applyUpserts PromptVersionEntity.id
            (applyUpserts PromptVersionEntity.id d.promptVersions p.promptVersions.created)
            p.promptVersions.updated)
          p.promptVersions.deleted
      groups :=
        applyDeletes GroupEntity.flagDeleted
          (applyUpserts GroupEntity.id
            (applyUpserts GroupEntity.id d.groups p.groups.created)
            p.groups.updated)
          p.groups.deleted }

/-- `db.updateSyncMetadata` (database.ts lines 88-95): a whole-record
`put` whose absent fields fall back to `0` / `null` / a fresh uuid (the
`freshUuid` parameter). -/
def dbUpdateSyncMetadata (d : DbState) (lastSyncId : Option Nat)
    (lastSyncedAt : Option String) (clientId : Option String)
    (freshUuid : String) : DbState :=
  { d with
      syncMetadata := some
        { lastSyncId := lastSyncId.getD 0
          lastSyncedAt := lastSyncedAt
          clientId := clientId.getD freshUuid } }

/-- `_applyServerChanges` (part_003 lines 303-357) in full: the view-side
apply, then `db.applyEntityChanges` and `db.updateSyncMetadata
({lastSyncId, lastSyncedAt})` — the metadata call passes no `clientId`,
so a fresh uuid is minted for the durable record. -/
def applyServerChangesClient (st : ClientState) (p : SyncPacket)
    (freshUuid : String) : ClientState :=
  { st with
      store := applyServerChangesView st.store p
      db :=
        dbUpdateSyncMetadata (dbApplyEntityChanges st.db p)
          (some p.syncId) (some p.timestamp) none freshUuid }

/-- `_removePendingMutation` (part_003 lines 408-416):
`db.removePendingMutation` plus a pending-count decrement clamped at
zero. -/
def removePendingMutationClient (st : ClientState) (mutationId : String) : ClientState :=
  { st with
      db := dbRemovePendingMutation st.db mutationId
      store := { st.store with
        syncState := { st.store.syncState with
          pendingMutationsCount :=
            max 0 (st.store.syncState.pendingMutationsCount - 1) } } }

/-- The non-deleted subset of a durable table, as a map. This is
`db.getActivePrompts()` / `filter((v) => !v.isDeleted)` followed by
`new Map(records.map((p) => [p.id, p]))`: since the table's primary key
is the record's `id` (every `put` stores under it), rebuilding the `Map`
keyed by `p.id` is pointwise the active-filter of the table. -/
def activeOnly {E : Type} (isDel : E → Bool) (m : EMap E) : EMap E :=
  fun k =>
    match m k with
    | some e => if isDel e then none else some e
    | none => none

/-- `_hydrateFromIndexedDB` (part_003 lines 365-406), success path: the
view's three entity maps are replaced by the durable store's *active*
records only (soft-deleted records are dropped from the view, though they
stay in the durable store), and the sync state is rebuilt from the
metadata record and the queue length. `online` stands for
`navigator.onLine`; the `catch` path (which leaves the maps alone) is not
modelled. -/
def hydrateFromIndexedDB (st : ClientState) (online : Bool) : ClientState :=
  { st with
      store :=
        { prompts := activeOnly (fun e => e.isDeleted) st.db.prompts
          promptVersions := activeOnly (fun e => e.isDeleted) st.db.promptVersions
          groups := activeOnly (fun e => e.isDeleted) st.db.groups
          syncState :=
            { status := .idle
              lastSyncId :=
                match st.db.syncMetadata with
                | some md => md.lastSyncId
                | none => 0
              lastSyncedAt :=
                match st.db.syncMetadata with
                | some md => md.lastSyncedAt
                | none => none
              pendingMutationsCount := ((getPendingMutations st.db).length : Int)
              isOnline := online
              lastError := none } } }

/-! ## The engine's push path (src/src/sync/engine.ts lines 205-320) -/

/-- One entry of `MutationResponse.results`. The optional
server-authoritative `entity` is never read by the engine and is
omitted. -/
structure MutationResult where
  mutationId : String
  success : Bool
  error : Option String
deriving DecidableEq, Repr

/-- `MutationResponse` from types.ts (the unused `conflicts` field is
omitted; the engine ignores it). -/
structure MutationResponse where
  success : Bool
  syncId : Nat
  results : List MutationResult
deriving DecidableEq, Repr

/-- What `fetch` came back with: a rejection / non-2xx / unparseable body
(anything that lands in the `catch`), or a parsed response. -/
inductive TransportOutcome
  | failure (message : String)
  | ok (response : MutationResponse)
deriving DecidableEq, Repr

/-- `handleFailedMutation` (engine.ts lines 283-303): with
`newRetryCount = retryCount + 1`, either drop the mutation and fire
`onMutationFailed` (when `newRetryCount >= maxRetries`), or patch its
`retryCount` and `lastError` in the queue. -/
def handleFailedMutation (cfg : SyncEngineConfig) (st : ClientState)
    (m : PendingMutation) (err : String) : ClientState × List EngineEvent :=
  let newRetryCount := m.retryCount + 1
  if cfg.maxRetries ≤ newRetryCount then
    (removePendingMutationClient
      { st with db := dbRemovePendingMutation st.db m.id } m.id,
      [.mutationFailed m.id err])
  else
    ({ st with db := dbUpdatePendingMutation st.db m.id newRetryCount err }, [])

/-- `mutationResult.error || 'Unknown error'` — JS truthiness, so an
empty string also falls back. -/
def errorOf (r : MutationResult) : String :=
  match r.error with
  | some s => if s = "" then "Unknown error" else s
  | none => "Unknown error"

/-- One iteration of the `for (const mutationResult of result.results)`
loop (engine.ts lines 236-250): a successful result is removed from the
queue (Dexie then store) and counted; a failed one is matched against the
batch and handed to `handleFailedMutation`. -/
def processResultStep (cfg : SyncEngineConfig) (batch : List PendingMutation)
    (acc : ClientState × Nat × List EngineEvent) (r : MutationResult) :
    ClientState × Nat × List EngineEvent :=
  let s := acc.1
  let n := acc.2.1
  let evs := acc.2.2
  if r.success then
    (removePendingMutationClient
      { s with db := dbRemovePendingMutation s.db r.mutationId } r.mutationId,
      n + 1, evs)
  else
    match batch.find? fun m => m.id = r.mutationId with
    | some m =>
      let out := handleFailedMutation cfg s m (errorOf r)
      (out.1, n, evs ++ out.2)
    | none => (s, n, evs)

/-- The whole result loop, threading the client state, the
`successCount` and the emitted events. -/
def processResults (cfg : SyncEngineConfig) (batch : List PendingMutation)
    (results : List MutationResult) (st : ClientState) :
    ClientState × Nat × List EngineEvent :=
  results.foldl (processResultStep cfg batch) (st, 0, [])

/-- `schedulePush` (engine.ts lines 308-320): re-arm the push timer with
the given delay, falling back to `pollInterval`. -/
def schedulePush (cfg : SyncEngineConfig) (e : EngineState)
    (delay : Option Nat) : EngineState :=
  { e with pushTimerDelay := some (delay.getD cfg.pollInterval) }

/-- `push()` (engine.ts lines 205-278). `online` stands for
`navigator.onLine` and `outcome` for the result of the `fetch` of
`/api/mutations`. The `isPushing` latch is raised for the duration of the
call and lowered in the `finally`, so it reads in the final state as it
did at entry. Returned alongside the new state is the trace of fired
callbacks. -/
def pushStep (cfg : SyncEngineConfig) (st : ClientState) (online : Bool)
    (outcome : TransportOutcome) : ClientState × List EngineEvent :=
  if st.engine.isPushing ∨ online = false then (st, [])
  else
    let pending := getPendingMutations st.db
    if pending.isEmpty then (st, [])
    else
      let st1 := setStatus st .pushing
      match outcome with
      | .failure _ =>
        ({ setStatus st1 .error with
            engine := schedulePush cfg st1.engine (some cfg.initialRetryDelay) },
          [.statusChange .pushing, .statusChange .error])
      | .ok response =>
        let batch := pending.take 10
        let processed := processResults cfg batch response.results st1
        let st2 := setStatus processed.1 .idle
        let successCount := processed.2.1
        let pushedEvents : List EngineEvent :=
          if 0 < successCount then [.mutationsPushed successCount] else []
        let st3 :=
          if response.syncId ≠ 0 then
            { st2 with store := { st2.store with
                syncState := { st2.store.syncState with
                  lastSyncId := response.syncId } } }
          else st2
        let remaining := getPendingMutations st3.db
        let st4 :=
          if remaining.isEmpty then st3
          else { st3 with engine := schedulePush cfg st3.engine (some 100) }
        (st4,
          [.statusChange .pushing] ++ processed.2.2 ++ [.statusChange .idle] ++
            pushedEvents)

/-! ## The mock sync backend (src/unnamed/part_002, lines 83-332)

The server is untyped JavaScript; its entities are plain objects whose
fields may all be absent, embedded as an all-`Option` record. `jsType`
stands for the JS `type` field. -/

/-- A plain JS object as stored in `mockDB` and carried on the wire. -/
structure JsObj where
  id : Option String
  jsType : Option String
  title : Option String
  content : Option String
  category : Option String
  isFavorite : Option Bool
  groupId : Option String
  promptId : Option String
  note : Option String
  name : Option String
  color : Option String
  createdAt : Option String
  updatedAt : Option String
  syncId : Option Nat
  isDeleted : Option Bool
deriving DecidableEq, Repr

/-- The object with no fields, `{}`. -/
def JsObj.empty : JsObj :=
  { id := none, jsType := none, title := none, content := none
    category := none, isFavorite := none, groupId := none, promptId := none
    note := none, name := none, color := none, createdAt := none
    updatedAt := none, syncId := none, isDeleted := none }

/-- `{ ...a, ...b }`: fields of `b` override those of `a`. -/
def jsSpread (a b : JsObj) : JsObj :=
  { id := b.id.orElse fun _ => a.id
    jsType := b.jsType.orElse fun _ => a.jsType
    title := b.title.orElse fun _ => a.title
    content := b.content.orElse fun _ => a.content
    category := b.category.orElse fun _ => a.category
    isFavorite := b.isFavorite.orElse fun _ => a.isFavorite
    groupId := b.groupId.orElse fun _ => a.groupId
    promptId := b.promptId.orElse fun _ => a.promptId
    note := b.note.orElse fun _ => a.note
    name := b.name.orElse fun _ => a.name
    color := b.color.orElse fun _ => a.color
    createdAt := b.createdAt.orElse fun _ => a.createdAt
    updatedAt := b.updatedAt.orElse fun _ => a.updatedAt
    syncId := b.syncId.orElse fun _ => a.syncId
    isDeleted := b.isDeleted.orElse fun _ => a.isDeleted }

/-- One record of the server's operation log
(`{ syncId, entityType, entityId, operation, entity, timestamp }`). -/
structure ServerOp where
  syncId : Nat
  entityType : String
  entityId : String
  operation : String
  entity : Option JsObj
  timestamp : String
deriving DecidableEq, Repr

/-- `currentSyncId` plus `mockDB`. -/
structure ServerState where
  currentSyncId : Nat
  prompts : EMap JsObj
  promptVersions : EMap JsObj
  groups : EMap JsObj
  operations : List ServerOp

/-- A mutation as the `/api/mutations` handler destructures it. The
`timestamp` and `retryCount` fields of the wire shape are carried but
never read by the handler. -/
structure WireMutation where
  id : String
  operation : String
  entityType : String
  entityId : String
  payload : Option JsObj
  timestamp : String
  retryCount : Nat
deriving DecidableEq, Repr

/-- One entry of the handler's `results` array. -/
structure ServerMutationResult where
  mutationId : String
  success : Bool
  entity : Option JsObj
  error : Option String
deriving DecidableEq, Repr

/-- Which `mockDB` map `entityType` selects, if any. -/
def serverMapOf (st : ServerState) : String → Option (EMap JsObj)
  | "prompt" => some st.prompts
  | "prompt_version" => some st.promptVersions
  | "group" => some st.groups
  | _ => none

/-- Write back the map selected by `entityType` (only called with one of
the three known types). -/
def serverSetMap (st : ServerState) (entityType : String) (m : EMap JsObj) :
    ServerState :=
  match entityType with
  | "prompt" => { st with prompts := m }
  | "prompt_version" => { st with promptVersions := m }
  | "group" => { st with groups := m }
  | _ => st

/-- `payload.createdAt || now` — JS truthiness, so an empty string also
falls back to `now`. -/
def createdAtOr (payload : JsObj) (now : String) : String :=
  match payload.createdAt with
  | some s => if s = "" then now else s
  | none => now

/-- One iteration of the `/api/mutations` loop (part_002 lines 257-309).
Returns the new server state and the entry pushed onto `results`
(`none` when the branch pushes nothing: an unrecognised `operation`
string falls through every `else if`). `recordOperation` (lines 98-116)
is inlined at each call site: it advances `currentSyncId`, appends a log
entry whose entity copy carries the new `syncId`, and for non-delete
operations also stamps the new `syncId` onto the stored entity (the JS
mutates the shared object in place). A `create` with a `null` payload
throws on `payload.createdAt` and is caught as a per-mutation failure. -/
def processMutation (st : ServerState) (now : String) (m : WireMutation) :
    ServerState × Option ServerMutationResult :=
  match serverMapOf st m.entityType with
  | none =>
    (st, some { mutationId := m.id, success := false, entity := none
                error := some "Unknown entity type" })
  | some entityMap =>
    if m.operation = "create" then
      match m.payload with
      | none =>
        (st, some { mutationId := m.id, success := false, entity := none
                    error := some "Cannot read properties of null (reading 'createdAt')" })
      | some payload =>
        let entity := { payload with
          id := some m.entityId
          jsType := some m.entityType
          createdAt := some (createdAtOr payload now)
          updatedAt := some now }
        let newSyncId := st.currentSyncId + 1
        let stamped := { entity with syncId := some newSyncId }
        let st' := serverSetMap st m.entityType (mapSet entityMap m.entityId stamped)
        let st'' := { st' with
          currentSyncId := newSyncId
          operations := st'.operations ++
            [{ syncId := newSyncId, entityType := m.entityType
               entityId := m.entityId, operation := "create"
               entity := some stamped, timestamp := now }] }
        (st'', some { mutationId := m.id, success := true, entity := some stamped
                      error := none })
    else if m.operation = "update" then
      match entityMap m.entityId with
      | none =>
        (st, some { mutationId := m.id, success := false, entity := none
                    error := some "Entity not found" })
      | some existing =>
        let updated := { jsSpread existing (m.payload.getD JsObj.empty) with
          updatedAt := some now }
        let newSyncId := st.currentSyncId + 1
        let stamped := { updated with syncId := some newSyncId }
        let st' := serverSetMap st m.entityType (mapSet entityMap m.entityId stamped)
        let st'' := { st' with
          currentSyncId := newSyncId
          operations := st'.operations ++
            [{ syncId := newSyncId, entityType := m.entityType
               entityId := m.entityId, operation := "update"
               entity := some stamped, timestamp := now }] }
        (st'', some { mutationId := m.id, success := true, entity := some stamped
                      error := none })
    else if m.operation = "delete" then
      match entityMap m.entityId with
      | some existing =>
        let flagged := { existing with isDeleted := some true, updatedAt := some now }
        let newSyncId := st.currentSyncId + 1
        let st' := serverSetMap st m.entityType (mapSet entityMap m.entityId flagged)
        let st'' := { st' with
          currentSyncId := newSyncId
          operations := st'.operations ++
            [{ syncId := newSyncId, entityType := m.entityType
               entityId := m.entityId, operation := "delete"
               entity := some { flagged with syncId := some newSyncId }
               timestamp := now }] }
        (st'', some { mutationId := m.id, success := true, entity := none
                      error := none })
      | none =>
        (st, some { mutationId := m.id, success := true, entity := none
                    error := none })
    else
      (st, none)

/-- Response body of `POST /api/mutations`. -/
structure WireMutationResponse where
  success : Bool
  syncId : Nat
  results : List ServerMutationResult
deriving DecidableEq, Repr

/-- The `/api/mutations` handler (part_002 lines 247-318): process the
mutations in order, answer with `success = results.every(r => r.success)`
and `syncId = newSyncId` (which always equals the final
`currentSyncId`). -/
def mutationsHandler (st : ServerState) (now : String)
    (mutations : List WireMutation) : ServerState × WireMutationResponse :=
  let out := mutations.foldl
    (fun acc m =>
      let step := processMutation acc.1 now m
      (step.1, acc.2 ++ step.2.toList))
    (st, ([] : List ServerMutationResult))
  (out.1,
    { success := out.2.all fun r => r.success
      syncId := out.1.currentSyncId
      results := out.2 })

/-- Request body of `POST /api/sync`:
`const { lastSyncId = 0, limit = 100 } = req.body`. The destructuring
defaults fire only when the property is absent (`undefined`), embedded as
`none`; a supplied `0` is `some 0`. -/
structure SyncRequestWire where
  lastSyncId : Option Nat
  limit : Option Nat
deriving DecidableEq, Repr

/-- One kind's bag in the handler's `changes` object. The `created` and
`updated` arrays receive `op.entity`, which in the untyped source can be
`null`. -/
structure WireDelta where
  created : List (Option JsObj)
  updated : List (Option JsObj)
  deleted : List String
deriving DecidableEq, Repr

/-- The empty `{ created: [], updated: [], deleted: [] }`. -/
def WireDelta.empty : WireDelta :=
  { created := [], updated := [], deleted := [] }

/-- The handler's `changes` object. -/
structure WireChanges where
  prompts : WireDelta
  promptVersions : WireDelta
  groups : WireDelta
deriving DecidableEq, Repr

/-- All three bags empty. -/
def WireChanges.empty : WireChanges :=
  { prompts := WireDelta.empty
    promptVersions := WireDelta.empty
    groups := WireDelta.empty }

/-- Response body of `POST /api/sync`. -/
structure SyncResponseWire where
  syncId : Nat
  timestamp : String
  hasMore : Bool
  changes : WireChanges
deriving DecidableEq, Repr

/-- Character-level splitting; for a one-character separator this is
JS `String.prototype.split`, empty trailing segments included. -/
def splitCharsOn (sep : Char) : List Char → List (List Char)
  | [] => [[]]
  | c :: cs =>
    if c = sep then [] :: splitCharsOn sep cs
    else
      match splitCharsOn sep cs with
      | [] => [[c]]
      | g :: gs => (c :: g) :: gs

/-- `key.split(':')`. -/
def splitOnColon (s : String) : List String :=
  (splitCharsOn ':' s.data).map fun cs => String.mk cs

/-- `entityStates.set(key, op)` on a JS `Map`: overwrite in place if the
key exists (keeping its insertion position), else append. -/
def upsertAssoc (acc : List (String × ServerOp)) (k : String) (v : ServerOp) :
    List (String × ServerOp) :=
  if acc.any fun p => p.1 = k then
    acc.map fun p => if p.1 = k then (k, v) else p
  else acc ++ [(k, v)]

/-- The `entityStates.forEach` body (part_002 lines 211-226): split the
key back into `[entityType, entityId]`, route on the entity type, and
push into `deleted` / `created` / `updated` by the recorded operation
(any other operation string matches no branch). -/
def addOpToChanges (changes : WireChanges) (kv : String × ServerOp) : WireChanges :=
  let segments := splitOnColon kv.1
  let entityType := segments.getD 0 ""
  let entityId := segments.getD 1 ""
  let op := kv.2
  let updateDelta : WireDelta → WireDelta := fun d =>
    if op.operation = "delete" then { d with deleted := d.deleted ++ [entityId] }
    else if op.operation = "create" then { d with created := d.created ++ [op.entity] }
    else if op.operation = "update" then { d with updated := d.updated ++ [op.entity] }
    else d
  match entityType with
  | "prompt" => { changes with prompts := updateDelta changes.prompts }
  | "prompt_version" => { changes with promptVersions := updateDelta changes.promptVersions }
  | "group" => { changes with groups := updateDelta changes.groups }
  | _ => changes

/-- The `/api/sync` handler (part_002 lines 187-240): filter the log to
operations past the cursor, truncate to `limit`, collapse to the latest
operation per entity (insertion-ordered), convert to the delta format,
and answer with the last truncated operation's `syncId` (or the request's
`lastSyncId` when nothing qualified). -/
def syncHandler (st : ServerState) (req : SyncRequestWire) (now : String) :
    SyncResponseWire :=
  let lastSyncId := req.lastSyncId.getD 0
  let limit := req.limit.getD 100
  let relevantOps := st.operations.filter fun op => lastSyncId < op.syncId
  let limitedOps := relevantOps.take limit
  let hasMore := decide (limit < relevantOps.length)
  let entityStates := limitedOps.foldl
    (fun acc op => upsertAssoc acc (op.entityType ++ ":" ++ op.entityId) op) []
  let changes := entityStates.foldl addOpToChanges WireChanges.empty
  let newSyncId :=
    match limitedOps.getLast? with
    | some op => op.syncId
    | none => lastSyncId
  { syncId := newSyncId
    timestamp := now
    hasMore := hasMore
    changes := changes }

/-! ## Enumerations of the client's entity operations -/

/-- Every `StoreActions` member of part_003 that touches the entity
maps: the public mutation operations, the engine-invoked
`_applyServerChanges`, and `_hydrateFromIndexedDB` (which rebuilds the
view from the durable store's active records). `clearAll` is
deliberately absent: it is the one operation allowed to remove durable
records. -/
inductive ClientOp
  | createPrompt (data : PromptCreateData) (newId mutId t : String)
  | updatePrompt (id : String) (updates : PromptPatch) (mutId t : String)
  | deletePrompt (id mutId t : String)
  | createPromptVersion (data : VersionCreateData) (newId mutId t : String)
  | createGroup (data : GroupCreateData) (newId mutId t : String)
  | updateGroup (id : String) (updates : GroupPatch) (mutId t : String)
  | deleteGroup (id mutId t : String)
  | applyServerChanges (p : SyncPacket) (freshUuid : String)
  | hydrate (online : Bool)

/-- Dispatch a `ClientOp` to its embedding. -/
def applyClientOp (st : ClientState) : ClientOp → ClientState
  | .createPrompt data newId mutId t => createPrompt st data newId mutId t
  | .updatePrompt id updates mutId t => updatePrompt st id updates mutId t
  | .deletePrompt id mutId t => deletePrompt st id mutId t
  | .createPromptVersion data newId mutId t => createPromptVersion st data newId mutId t
  | .createGroup data newId mutId t => createGroup st data newId mutId t
  | .updateGroup id updates mutId t => updateGroup st id updates mutId t
  | .deleteGroup id mutId t => deleteGroup st id mutId t
  | .applyServerChanges p freshUuid => applyServerChangesClient st p freshUuid
  | .hydrate online => hydrateFromIndexedDB st online

/-- Whether the operation is the hydrate projection rebuild. -/
def ClientOp.isHydrate : ClientOp → Bool
  | .hydrate _ => true
  | _ => false

/-- The operations that touch `pendingMutationsCount`: `queueMutation`'s
increment and `_removePendingMutation`'s clamped decrement. -/
inductive QueueOp
  | enqueue (mutId : String) (operation : MutationOperation)
      (entityType : EntityType) (entityId : String)
      (payload : Option MutationPayload) (t : String)
  | remove (mutationId : String)

/-- Dispatch a `QueueOp` to its embedding. -/
def applyQueueOp (st : ClientState) : QueueOp → ClientState
  | .enqueue mutId operation entityType entityId payload t =>
    queueMutation st mutId operation entityType entityId payload t
  | .remove mutationId => removePendingMutationClient st mutationId

/-! ## In-flight request accounting (engine.ts concurrency)

`sync()` and `push()` are `async`; a call that reaches an `await`
suspends there, so overlapping calls interleave at suspension points.
`ConcState` instruments the engine with in-flight counters; the guards of
`concStep` are transcribed from `sync()` (lines 139-143: only
`navigator.onLine` is consulted before the fetch) and `push()` (lines
205-211). In `push()` the latch check
`if (this.isPushing || !navigator.onLine) return` (line 206) and the
latch raise `this.isPushing = true` (line 211) straddle the suspension
`await db.getPendingMutations()` (line 208), so the entry is modelled as
two events: `pushCheck` (pass the latch check and suspend at the await,
counted in `checksAwaiting`) and `pushRaise` (resume: bail out on an
empty queue, else raise the latch — without re-checking it — and start
the fetch). `resolve` events model a fetch settling (for push, the
`finally` that lowers the latch). -/
structure ConcState where
  online : Bool
  isPushing : Bool
  hasPending : Bool
  checksAwaiting : Nat
  pullsInFlight : Nat
  pushesInFlight : Nat
deriving DecidableEq, Repr

/-- The ways a pull or push gets initiated or settles. `syncCall` covers
every caller of `sync()`: the poll timer, the `hasMore` reschedule, the
online handler and `forceSync()`. -/
inductive ConcEvent
  | syncCall
  | syncResolve
  | pushCheck
  | pushRaise
  | pushResolve
deriving DecidableEq, Repr

/-- One transition of the instrumented engine. -/
def concStep (s : ConcState) : ConcEvent → ConcState
  | .syncCall =>
    if s.online then { s with pullsInFlight := s.pullsInFlight + 1 } else s
  | .syncResolve => { s with pullsInFlight := s.pullsInFlight - 1 }
  | .pushCheck =>
    if s.isPushing ∨ s.online = false then s
    else { s with checksAwaiting := s.checksAwaiting + 1 }
  | .pushRaise =>
    if s.checksAwaiting = 0 then s
    else
      if s.hasPending = false then { s with checksAwaiting := s.checksAwaiting - 1 }
      else
        { s with
            checksAwaiting := s.checksAwaiting - 1
            isPushing := true
            pushesInFlight := s.pushesInFlight + 1 }
  | .pushResolve =>
    if s.pushesInFlight = 0 then s
    else { s with isPushing := false, pushesInFlight := s.pushesInFlight - 1 }

/-- Run a sequence of initiations and completions. -/
def concRun (s : ConcState) (evs : List ConcEvent) : ConcState :=
  evs.foldl concStep s

/-! ## Initial states -/

/-- The store's initial `syncState` (part_003 lines 116-123); `online`
stands for `navigator.onLine`. -/
def initialSyncState (online : Bool) : SyncState :=
  { status := .idle
    lastSyncedAt := none
    lastSyncId := 0
    pendingMutationsCount := 0
    isOnline := online
    lastError := none }

/-- A client whose store, database and engine hold nothing (the store's
initial state with an empty Dexie database and an idle engine). -/
def emptyClient (online : Bool) : ClientState :=
  { store :=
      { prompts := fun _ => none
        promptVersions := fun _ => none
        groups := fun _ => none
        syncState := initialSyncState online }
    db :=
      { prompts := fun _ => none
        promptVersions := fun _ => none
        groups := fun _ => none
        pendingMutations := []
        syncMetadata := none }
    engine :=
      { isRunning := false
        isPushing := false
        pushTimerDelay := none } }

/-! ## Concrete fixtures used by witnesses and counterexamples -/

/-- A server-shaped prompt object. -/
def promptObjA : JsObj :=
  { JsObj.empty with id := some "A", jsType := some "prompt", title := some "a" }

/-- A server whose log holds exactly one operation (the creation of
prompt `A` at cursor 1). -/
def serverOne : ServerState :=
  { currentSyncId := 1
    prompts := fun k => if k = "A" then some promptObjA else none
    promptVersions := fun _ => none
    groups := fun _ => none
    operations :=
      [{ syncId := 1, entityType := "prompt", entityId := "A"
         operation := "create", entity := some promptObjA, timestamp := "T0" }] }

/-- A concurrency state with nothing in flight, online, with pending
mutations available. -/
def concInit : ConcState :=
  { online := true
    isPushing := false
    hasPending := true
    checksAwaiting := 0
    pullsInFlight := 0
    pushesInFlight := 0 }

/-- The pending-mutation record `deletePrompt` queues. -/
def deleteMutationRecord (id mutId t : String) : PendingMutation :=
  { id := mutId
    operation := .delete
    entityType := .prompt
    entityId := id
    payload := none
    timestamp := t
    retryCount := 0
    lastError := none }

/-- A client with exactly one queued mutation. -/
def clientOneMutation : ClientState :=
  queueMutation (emptyClient true) "mu1" .create .prompt "P1" none "T1"

/-- A pending mutation that has already been retried four times. -/
def mutationRetried4 : PendingMutation :=
  { id := "mu4"
    operation := .create
    entityType := .prompt
    entityId := "P4"
    payload := none
    timestamp := "T"
    retryCount := 4
    lastError := none }

/-- A client whose queue holds `mutationRetried4`. -/
def clientMutationRetried4 : ClientState :=
  { emptyClient true with
      db := { (emptyClient true).db with pendingMutations := [mutationRetried4] } }

/-- A pull packet with cursor 3 and no entity changes. -/
def packet3 : SyncPacket :=
  { syncId := 3
    timestamp := "T3"
    hasMore := false
    prompts := { created := [], updated := [], deleted := [] }
    promptVersions := { created := [], updated := [], deleted := [] }
    groups := { created := [], updated := [], deleted := [] } }

/-- An empty store whose cursor already stands at 5. -/
def store5 : StoreState :=
  { prompts := fun _ => none
    promptVersions := fun _ => none
    groups := fun _ => none
    syncState := { initialSyncState true with lastSyncId := 5 } }

/-- A push response carrying cursor 3 and no per-mutation results. -/
def resp3 : MutationResponse :=
  { success := true, syncId := 3, results := [] }

/-- A local prompt entity with id `A`. -/
def promptA : PromptEntity :=
  { id := "A"
    createdAt := "T0"
    updatedAt := "T0"
    syncId := none
    isDeleted := false
    title := "a"
    content := ""
    category := ""
    isFavorite := false
    groupId := none }

/-- A client holding prompt `A` in both the view and the durable store. -/
def clientWithPromptA : ClientState :=
  { emptyClient true with
      store := { (emptyClient true).store with
        prompts := mapSet (fun _ => none) "A" promptA }
      db := { (emptyClient true).db with
        prompts := mapSet (fun _ => none) "A" promptA } }

/-- `clientWithPromptA` after a local `deletePrompt "A"`: prompt `A` is
soft-deleted in both the view and the durable store. -/
def clientSoftDeletedA : ClientState :=
  deletePrompt clientWithPromptA "A" "m1" "T"

/-- Prompt `A` as it sits in `clientSoftDeletedA`'s durable store. -/
def flaggedPromptA : PromptEntity :=
  { promptA with isDeleted := true, updatedAt := "T" }

/-- Domain preservation between two client states: every entity record
present before (in any of the three view maps or three durable tables) is
still present after. -/
def preservesEntityDomains (s s' : ClientState) : Prop :=
  ∀ k : String,
    ((s.store.prompts k).isSome → (s'.store.prompts k).isSome) ∧
    ((s.store.promptVersions k).isSome → (s'.store.promptVersions k).isSome) ∧
    ((s.store.groups k).isSome → (s'.store.groups k).isSome) ∧
    ((s.db.prompts k).isSome → (s'.db.prompts k).isSome) ∧
    ((s.db.promptVersions k).isSome → (s'.db.promptVersions k).isSome) ∧
    ((s.db.groups k).isSome → (s'.db.groups k).isSome)

/-! ## Theorems -/

/-- Claim C5: Applying the same pull packet twice in succession yields the
same post-state as applying it once, over the view's entity maps and
sync metadata: for every store state `s` and packet `p`,
`_applyServerChanges` is idempotent. -/
theorem c5_apply_same_packet_twice (s : StoreState) (p : SyncPacket) :
    applyServerChangesView (applyServerChangesView s p) p =
      applyServerChangesView s p := by
  unfold applyServerChangesView
  congr 1
  · exact applyKind_idem PromptEntity.id PromptEntity.flagDeleted
      promptFlag_idem _ _ _ _
  · exact applyKind_idem PromptVersionEntity.id PromptVersionEntity.flagDeleted
      versionFlag_idem _ _ _ _
  · exact applyKind_idem GroupEntity.id GroupEntity.flagDeleted
      groupFlag_idem _ _ _ _

/-- Claim C9: The exposed `pendingMutationsCount` never becomes negative:
`_removePendingMutation` clamps the decrement at zero, so any sequence of
enqueue and remove operations (including removals of ids already
removed) started from a non-negative count stays non-negative. -/
theorem c9_pending_count_nonneg (ops : List QueueOp) (st : ClientState)
    (h : 0 ≤ st.store.syncState.pendingMutationsCount) :
    0 ≤ (ops.foldl applyQueueOp st).store.syncState.pendingMutationsCount := by
  induction ops generalizing st with
  | nil => exact h
  | cons op ops ih =>
    refine ih _ ?_
    cases op with
    | enqueue mutId operation entityType entityId payload t =>
      show 0 ≤ (queueMutation st mutId operation entityType entityId payload
        t).store.syncState.pendingMutationsCount
      simp only [queueMutation]
      omega
    | remove mutationId =>
      show 0 ≤ (removePendingMutationClient st
        mutationId).store.syncState.pendingMutationsCount
      simp only [removePendingMutationClient]
      exact le_max_left 0 _

/-- Witness for C9: two removals on an empty client (count 0) leave the
count non-negative. -/
theorem c9_pending_count_nonneg_witness :
    0 ≤ (([QueueOp.remove "a", QueueOp.remove "a"]).foldl applyQueueOp
      (emptyClient true)).store.syncState.pendingMutationsCount :=
  c9_pending_count_nonneg [QueueOp.remove "a", QueueOp.remove "a"]
    (emptyClient true) (by decide)

/-- Claim C8, counterexample: The claim says `limit = 0` is treated as the
default limit of 100. On `serverOne` (one log operation past cursor 0), a
request with `limit: 0` yields an empty truncated delta — zero created
prompts and `hasMore = true` — whereas omitting `limit` returns the
operation. -/
theorem c8_limit_zero_counterexample :
    (syncHandler serverOne { lastSyncId := some 0, limit := some 0 }
        "T").changes.prompts.created.length = 0 ∧
    (syncHandler serverOne { lastSyncId := some 0, limit := some 0 }
        "T").hasMore = true ∧
    (syncHandler serverOne { lastSyncId := some 0, limit := none }
        "T").changes.prompts.created.length = 1 := by
  decide

/-- Claim C8, amended: A sync request carrying `limit = 0` is *not*
treated as the default: the destructuring default fires only when `limit`
is absent. With `limit: 0` the handler returns an empty delta (all bags
empty), echoes the request's `lastSyncId` as `syncId`, and sets `hasMore`
exactly when operations past the cursor exist. -/
theorem c8_limit_zero_empty_delta (st : ServerState) (lastSyncId : Nat)
    (now : String) :
    (syncHandler st { lastSyncId := some lastSyncId, limit := some 0 }
        now).changes = WireChanges.empty ∧
    (syncHandler st { lastSyncId := some lastSyncId, limit := some 0 }
        now).syncId = lastSyncId ∧
    (syncHandler st { lastSyncId := some lastSyncId, limit := some 0 }
        now).hasMore =
      decide (0 < (st.operations.filter fun op => lastSyncId < op.syncId).length) := by
  unfold syncHandler
  simp

/-- Claim C10: On the mutations endpoint, a `delete` mutation whose
`entityId` is absent from the selected server map still yields
`success = true` for that mutation, while the server state — operation
log and `currentSyncId` cursor included — is left untouched, and the
response echoes the unchanged cursor. -/
theorem c10_delete_missing_entity (st : ServerState) (now : String)
    (m : WireMutation) (em : EMap JsObj)
    (hmap : serverMapOf st m.entityType = some em)
    (hmiss : em m.entityId = none)
    (hop : m.operation = "delete") :
    mutationsHandler st now [m] =
      (st, { success := true
             syncId := st.currentSyncId
             results := [{ mutationId := m.id, success := true
                           entity := none, error := none }] }) := by
  have hpm : processMutation st now m =
      (st, some { mutationId := m.id, success := true
                  entity := none, error := none }) := by
    unfold processMutation
    rw [hmap, hop]
    simp [hmiss]
  unfold mutationsHandler
  simp [hpm]

/-- Witness for C10: deleting the unknown prompt id `Z` on `serverOne`. -/
theorem c10_delete_missing_entity_witness :
    mutationsHandler serverOne "T"
        [{ id := "mu1", operation := "delete", entityType := "prompt"
           entityId := "Z", payload := none, timestamp := "T", retryCount := 0 }] =
      (serverOne,
        { success := true
          syncId := serverOne.currentSyncId
          results := [{ mutationId := "mu1", success := true
                        entity := none, error := none }] }) :=
  c10_delete_missing_entity serverOne "T" _ serverOne.prompts rfl (by decide) rfl

/-- Claim C6, counterexample: The claim says `deletePrompt(id)` on a
missing id is a complete no-op with no delete mutation enqueued. On an
empty client, `deletePrompt "X"` nevertheless queues one mutation and
bumps the pending count to 1. -/
theorem c6_delete_missing_counterexample :
    (deletePrompt (emptyClient true) "X" "m1" "T").db.pendingMutations.length = 1 ∧
    (emptyClient true).db.pendingMutations.length = 0 ∧
    (deletePrompt (emptyClient true) "X" "m1"
        "T").store.syncState.pendingMutationsCount = 1 := by
  decide

/-- Claim C6, amended: For an id with no matching prompt, `deletePrompt`
leaves the view's prompt map and the durable prompt table unchanged
(the flag and timestamp touch happen only when the prompt exists), but
it still unconditionally enqueues a `delete` mutation and increments the
pending count — the queueing is not guarded on existence. -/
theorem c6_delete_missing_amended (st : ClientState) (id mutId t : String)
    (hview : st.store.prompts id = none) (hdb : st.db.prompts id = none) :
    (deletePrompt st id mutId t).store.prompts = st.store.prompts ∧
    (deletePrompt st id mutId t).db.prompts = st.db.prompts ∧
    (deletePrompt st id mutId t).db.pendingMutations =
      putMutation st.db.pendingMutations (deleteMutationRecord id mutId t) ∧
    (deletePrompt st id mutId t).store.syncState.pendingMutationsCount =
      st.store.syncState.pendingMutationsCount + 1 := by
  unfold deletePrompt queueMutation updateIfPresent deleteMutationRecord
  rw [hview, hdb]
  exact ⟨rfl, rfl, rfl, rfl⟩

/-- Witness for C6 (amended): the empty client, where `"X"` is missing
from both the view and the durable store. -/
theorem c6_delete_missing_amended_witness :
    (deletePrompt (emptyClient true) "X" "m1" "T").store.prompts =
      (emptyClient true).store.prompts ∧
    (deletePrompt (emptyClient true) "X" "m1" "T").db.prompts =
      (emptyClient true).db.prompts ∧
    (deletePrompt (emptyClient true) "X" "m1" "T").db.pendingMutations =
      putMutation (emptyClient true).db.pendingMutations
        (deleteMutationRecord "X" "m1" "T") ∧
    (deletePrompt (emptyClient true) "X" "m1"
        "T").store.syncState.pendingMutationsCount =
      (emptyClient true).store.syncState.pendingMutationsCount + 1 :=
  c6_delete_missing_amended (emptyClient true) "X" "m1" "T" rfl rfl

/-- Claim C7, counterexample: The claim says at most one pull is ever in
flight. From `concInit` (online, idle), two consecutive entries into
`sync()` — e.g. a poll tick racing a `forceSync()` — leave two pulls in
flight: `sync()` consults no in-flight latch. -/
theorem c7_two_pulls_counterexample :
    (concRun concInit [.syncCall, .syncCall]).pullsInFlight = 2 ∧
    ¬(concRun concInit [.syncCall, .syncCall]).pullsInFlight ≤ 1 := by
  decide

/-- Claim C7, amended: Neither direction of the claim's guarantee holds.
The pull path has no latch at all: whenever the client is online, an
entry into `sync()` starts a new pull regardless of how many are already
in flight — concurrent pulls are neither coalesced nor dropped. The push
path's `isPushing` latch only drops a `push()` entry whose check runs
while the latch is already raised; because the check and the raise
straddle the `await db.getPendingMutations()` suspension, two push
entries that both pass the check before either resumes go on to raise
the latch twice and run two concurrent pushes. -/
theorem c7_no_single_flight_guarantee :
    (∀ s : ConcState, s.online = true →
      (concStep s .syncCall).pullsInFlight = s.pullsInFlight + 1) ∧
    (∀ s : ConcState, s.isPushing = true → concStep s .pushCheck = s) ∧
    (concRun concInit
      [.pushCheck, .pushCheck, .pushRaise, .pushRaise]).pushesInFlight = 2 := by
  refine ⟨?_, ?_, ?_⟩
  · intro s hs
    simp [concStep, hs]
  · intro s hs
    simp [concStep, hs]
  · decide

/-- Claim C2: On a transport-level push failure (network unreachable,
non-2xx status, unparseable body — all of which land in the same
`catch`), no pending mutation is modified (the Dexie queue is exactly as
before, so every `retryCount` and `lastError` is untouched), the exposed
count is unchanged, the status transitions to `error`, and a push retry
is scheduled after `initialRetryDelay`. -/
theorem c2_transport_failure_push (cfg : SyncEngineConfig) (st : ClientState)
    (msg : String)
    (hlatch : st.engine.isPushing = false)
    (hqueue : (getPendingMutations st.db).isEmpty = false) :
    (pushStep cfg st true (.failure msg)).1.db.pendingMutations =
      st.db.pendingMutations ∧
    (pushStep cfg st true (.failure msg)).1.store.syncState.status = .error ∧
    (pushStep cfg st true (.failure msg)).1.engine.pushTimerDelay =
      some cfg.initialRetryDelay ∧
    (pushStep cfg st true (.failure msg)).1.store.syncState.pendingMutationsCount =
      st.store.syncState.pendingMutationsCount ∧
    (pushStep cfg st true (.failure msg)).2 =
      [.statusChange .pushing, .statusChange .error] := by
  unfold pushStep
  simp [hlatch, hqueue, setStatus, schedulePush]

/-- Witness for C2: a single queued mutation and a network failure. -/
theorem c2_transport_failure_push_witness :
    (pushStep DEFAULT_CONFIG clientOneMutation true (.failure "net")).1.db.pendingMutations =
      clientOneMutation.db.pendingMutations ∧
    (pushStep DEFAULT_CONFIG clientOneMutation true
        (.failure "net")).1.store.syncState.status = .error ∧
    (pushStep DEFAULT_CONFIG clientOneMutation true
        (.failure "net")).1.engine.pushTimerDelay =
      some DEFAULT_CONFIG.initialRetryDelay ∧
    (pushStep DEFAULT_CONFIG clientOneMutation true
        (.failure "net")).1.store.syncState.pendingMutationsCount =
      clientOneMutation.store.syncState.pendingMutationsCount ∧
    (pushStep DEFAULT_CONFIG clientOneMutation true (.failure "net")).2 =
      [.statusChange .pushing, .statusChange .error] :=
  c2_transport_failure_push DEFAULT_CONFIG clientOneMutation "net" rfl (by decide)

/-- Claim C3: For a push result with `success = false` matched to
pending mutation `m`, `handleFailedMutation` either — when the
incremented retry count stays below `maxRetries` — records
`retryCount + 1` and the error as `lastError` on the queued record, or —
when it reaches `maxRetries` — removes the mutation from the queue
(leaving every other mutation) and emits `onMutationFailed` exactly
once. In particular a mutation whose stored `retryCount` equals
`maxRetries - 1` that then fails is dequeued and reported. -/
theorem c3_failed_mutation (cfg : SyncEngineConfig) (st : ClientState)
    (m : PendingMutation) (err : String) :
    (cfg.maxRetries ≤ m.retryCount + 1 →
      (∀ x ∈ (handleFailedMutation cfg st m err).1.db.pendingMutations,
        x.id ≠ m.id) ∧
      (∀ x ∈ st.db.pendingMutations, x.id ≠ m.id →
        x ∈ (handleFailedMutation cfg st m err).1.db.pendingMutations) ∧
      (handleFailedMutation cfg st m err).2 = [.mutationFailed m.id err]) ∧
    (m.retryCount + 1 < cfg.maxRetries →
      (handleFailedMutation cfg st m err).1.db.pendingMutations =
        st.db.pendingMutations.map (fun x =>
          if x.id = m.id then
            { x with retryCount := m.retryCount + 1, lastError := some err }
          else x) ∧
      (handleFailedMutation cfg st m err).2 = []) ∧
    (m.retryCount = cfg.maxRetries - 1 → 1 ≤ cfg.maxRetries →
      (∀ x ∈ (handleFailedMutation cfg st m err).1.db.pendingMutations,
        x.id ≠ m.id) ∧
      (handleFailedMutation cfg st m err).2 = [.mutationFailed m.id err]) := by
  have hrem : cfg.maxRetries ≤ m.retryCount + 1 →
      (∀ x ∈ (handleFailedMutation cfg st m err).1.db.pendingMutations,
        x.id ≠ m.id) ∧
      (∀ x ∈ st.db.pendingMutations, x.id ≠ m.id →
        x ∈ (handleFailedMutation cfg st m err).1.db.pendingMutations) ∧
      (handleFailedMutation cfg st m err).2 = [.mutationFailed m.id err] := by
    intro h
    unfold handleFailedMutation removePendingMutationClient dbRemovePendingMutation
    simp only [if_pos h]
    refine ⟨?_, ?_, by trivial⟩
    · intro x hx
      have := (List.mem_filter.mp (List.mem_filter.mp hx).1).2
      simpa using this
    · intro x hx hne
      exact List.mem_filter.mpr ⟨List.mem_filter.mpr ⟨hx, by simpa using hne⟩,
        by simpa using hne⟩
  refine ⟨hrem, ?_, fun h1 h2 => ⟨(hrem (by omega)).1, (hrem (by omega)).2.2⟩⟩
  intro h
  unfold handleFailedMutation dbUpdatePendingMutation
  simp only [if_neg (by omega : ¬cfg.maxRetries ≤ m.retryCount + 1)]
  exact ⟨by trivial, by trivial⟩

/-- Witness for C3: `maxRetries = 5` (default config) and a mutation
with stored `retryCount = 4` is dequeued and reported once. -/
theorem c3_failed_mutation_witness :
    (∀ x ∈ (handleFailedMutation DEFAULT_CONFIG clientMutationRetried4
        mutationRetried4 "boom").1.db.pendingMutations,
      x.id ≠ mutationRetried4.id) ∧
    (handleFailedMutation DEFAULT_CONFIG clientMutationRetried4
        mutationRetried4 "boom").2 =
      [.mutationFailed mutationRetried4.id "boom"] :=
  (c3_failed_mutation DEFAULT_CONFIG clientMutationRetried4 mutationRetried4
    "boom").2.2 rfl (by decide)

/-- `handleFailedMutation` never touches the cursor. -/
theorem handleFailedMutation_lastSyncId (cfg : SyncEngineConfig)
    (st : ClientState) (m : PendingMutation) (err : String) :
    (handleFailedMutation cfg st m err).1.store.syncState.lastSyncId =
      st.store.syncState.lastSyncId := by
  by_cases h : cfg.maxRetries ≤ m.retryCount + 1 <;>
    simp [handleFailedMutation, removePendingMutationClient, h]

/-- One result-loop iteration never touches the cursor. -/
theorem processResultStep_lastSyncId (cfg : SyncEngineConfig)
    (batch : List PendingMutation) (acc : ClientState × Nat × List EngineEvent)
    (r : MutationResult) :
    (processResultStep cfg batch acc r).1.store.syncState.lastSyncId =
      acc.1.store.syncState.lastSyncId := by
  unfold processResultStep
  cases hr : r.success with
  | true => simp [hr, removePendingMutationClient]
  | false =>
    simp only [hr, Bool.false_eq_true, if_false]
    cases hfind : batch.find? fun m => m.id = r.mutationId with
    | none => rfl
    | some m => simp [hfind, handleFailedMutation_lastSyncId]

/-- The whole result loop never touches the cursor. -/
theorem processResults_lastSyncId (cfg : SyncEngineConfig)
    (batch : List PendingMutation) (results : List MutationResult)
    (st : ClientState) :
    (processResults cfg batch results st).1.store.syncState.lastSyncId =
      st.store.syncState.lastSyncId := by
  unfold processResults
  suffices h : ∀ acc : ClientState × Nat × List EngineEvent,
      (results.foldl (processResultStep cfg batch) acc).1.store.syncState.lastSyncId =
        acc.1.store.syncState.lastSyncId from h (st, 0, [])
  induction results with
  | nil => intro acc; rfl
  | cons r rs ih =>
    intro acc
    show (rs.foldl (processResultStep cfg batch)
      (processResultStep cfg batch acc r)).1.store.syncState.lastSyncId = _
    rw [ih, processResultStep_lastSyncId]

/-- `Map.set` never removes a key. -/
theorem mapSet_isSome {E : Type} (m : EMap E) (k' : String) (v : E) (k : String)
    (h : (m k).isSome) : (mapSet m k' v k).isSome := by
  unfold mapSet
  split <;> simp_all

/-- Dexie `update` never removes a key. -/
theorem updateIfPresent_isSome {E : Type} (m : EMap E) (id : String) (patch : E → E)
    (k : String) (h : (m k).isSome) : (updateIfPresent m id patch k).isSome := by
  unfold updateIfPresent
  cases m id with
  | none => exact h
  | some e => exact mapSet_isSome _ _ _ _ h

/-- Dexie `update(id, patch)` pointwise: the patched record at `id`,
everything else untouched; an absent `id` stays absent. -/
theorem updateIfPresent_eq {E : Type} (m : EMap E) (id : String) (patch : E → E)
    (k : String) :
    updateIfPresent m id patch k =
      if k = id then (m id).map patch else m k := by
  unfold updateIfPresent
  cases hm : m id with
  | none =>
    by_cases hk : k = id
    · subst hk; simp [hm]
    · simp [hk]
  | some e =>
    by_cases hk : k = id
    · subst hk; simp [mapSet, hm]
    · simp [mapSet, hk]

/-- One kind's portion of a server-delta application never removes a
key. -/
theorem applyKind_isSome {E : Type} (getId : E → String) (flag : E → E)
    (hflag : ∀ e, flag (flag e) = flag e)
    (created updated : List E) (deleted : List String) (m : EMap E) (k : String)
    (h : (m k).isSome) :
    (applyDeletes flag (applyUpserts getId (applyUpserts getId m created) updated)
      deleted k).isSome := by
  rw [applyKind_eq getId flag hflag]
  cases hu : lastUpsert getId (created ++ updated) k with
  | some e => by_cases hd : k ∈ deleted <;> simp [hd]
  | none =>
    cases hm : m k with
    | none => rw [hm] at h; simp at h
    | some e => by_cases hd : k ∈ deleted <;> simp [hd]

/-- Claim C1, counterexample: The claim says a pull packet with
`syncId ≤ c` never rewinds the cursor. With the cursor at 5, applying
`packet3` (cursor 3, no changes) rewinds the store's cursor to 3. -/
theorem c1_cursor_rewind_counterexample :
    store5.syncState.lastSyncId = 5 ∧
    packet3.syncId = 3 ∧
    (applyServerChangesView store5 packet3).syncState.lastSyncId = 3 ∧
    (applyServerChangesView store5 packet3).syncState.lastSyncId ≠
      store5.syncState.lastSyncId :=
  ⟨rfl, rfl, rfl, by decide⟩

/-- Claim C1, amended: The cursor is not guarded against regression.
`_applyServerChanges` installs `packet.syncId` unconditionally, so a
packet with `syncId = c` leaves the cursor at `c` but a packet with
`syncId < c` rewinds it; the cursor is non-decreasing only when every
packet satisfies the server contract `syncId ≥ c`. The push path installs
the response's `syncId` whenever it is nonzero (JS truthiness), even when
it is smaller than the current cursor, and leaves the cursor alone when
it is zero. -/
theorem c1_cursor_amended :
    (∀ (s : StoreState) (p : SyncPacket),
      (applyServerChangesView s p).syncState.lastSyncId = p.syncId) ∧
    (∀ (s : StoreState) (p : SyncPacket),
      s.syncState.lastSyncId ≤ p.syncId →
      s.syncState.lastSyncId ≤ (applyServerChangesView s p).syncState.lastSyncId) ∧
    (∀ (cfg : SyncEngineConfig) (st : ClientState) (resp : MutationResponse),
      st.engine.isPushing = false →
      (getPendingMutations st.db).isEmpty = false →
      (pushStep cfg st true (.ok resp)).1.store.syncState.lastSyncId =
        if resp.syncId ≠ 0 then resp.syncId else st.store.syncState.lastSyncId) := by
  refine ⟨fun s p => rfl, fun s p h => h, ?_⟩
  intro cfg st resp hlatch hqueue
  by_cases hz : resp.syncId ≠ 0 <;>
    simp [pushStep, hlatch, hqueue, hz, setStatus, processResults_lastSyncId,
      apply_ite ClientState.store, apply_ite StoreState.syncState,
      apply_ite SyncState.lastSyncId]

/-- Witness for C1 (amended): the contract-respecting pull keeps the
cursor non-decreasing on the empty store, and a push response with
`syncId = 3` installs 3. -/
theorem c1_cursor_amended_witness :
    ((emptyClient true).store.syncState.lastSyncId ≤
      (applyServerChangesView (emptyClient true).store packet3).syncState.lastSyncId) ∧
    (pushStep DEFAULT_CONFIG clientOneMutation true
        (.ok resp3)).1.store.syncState.lastSyncId =
      if resp3.syncId ≠ 0 then resp3.syncId
      else clientOneMutation.store.syncState.lastSyncId :=
  ⟨c1_cursor_amended.2.1 (emptyClient true).store packet3 (by decide),
    c1_cursor_amended.2.2 DEFAULT_CONFIG clientOneMutation resp3 rfl (by decide)⟩

/-- Witness for C7 (amended): from `concInit`, one `sync()` entry adds a
pull in flight, and with the latch already raised a `push()` entry is
dropped at its check. -/
theorem c7_no_single_flight_guarantee_witness :
    (concStep concInit .syncCall).pullsInFlight = concInit.pullsInFlight + 1 ∧
    concStep { concInit with isPushing := true } .pushCheck =
      { concInit with isPushing := true } :=
  ⟨c7_no_single_flight_guarantee.1 concInit rfl,
    c7_no_single_flight_guarantee.2.1 { concInit with isPushing := true } rfl⟩

/-- `updatePrompt` preserves the domains of all six entity maps. -/
theorem updatePrompt_preserves (st : ClientState) (pid : String)
    (updates : PromptPatch) (mutId t k : String) :
    ((st.store.prompts k).isSome →
      ((updatePrompt st pid updates mutId t).store.prompts k).isSome) ∧
    ((st.store.promptVersions k).isSome →
      ((updatePrompt st pid updates mutId t).store.promptVersions k).isSome) ∧
    ((st.store.groups k).isSome →
      ((updatePrompt st pid updates mutId t).store.groups k).isSome) ∧
    ((st.db.prompts k).isSome →
      ((updatePrompt st pid updates mutId t).db.prompts k).isSome) ∧
    ((st.db.promptVersions k).isSome →
      ((updatePrompt st pid updates mutId t).db.promptVersions k).isSome) ∧
    ((st.db.groups k).isSome →
      ((updatePrompt st pid updates mutId t).db.groups k).isSome) := by
  unfold updatePrompt
  cases hm : st.store.prompts pid with
  | none =>
    exact ⟨fun h => h, fun h => h, fun h => h, fun h => h, fun h => h, fun h => h⟩
  | some e =>
    exact ⟨fun h => mapSet_isSome _ _ _ _ h, fun h => h, fun h => h,
      fun h => mapSet_isSome _ _ _ _ h, fun h => h, fun h => h⟩

/-- `updateGroup` preserves the domains of all six entity maps. -/
theorem updateGroup_preserves (st : ClientState) (gid : String)
    (updates : GroupPatch) (mutId t k : String) :
    ((st.store.prompts k).isSome →
      ((updateGroup st gid updates mutId t).store.prompts k).isSome) ∧
    ((st.store.promptVersions k).isSome →
      ((updateGroup st gid updates mutId t).store.promptVersions k).isSome) ∧
    ((st.store.groups k).isSome →
      ((updateGroup st gid updates mutId t).store.groups k).isSome) ∧
    ((st.db.prompts k).isSome →
      ((updateGroup st gid updates mutId t).db.prompts k).isSome) ∧
    ((st.db.promptVersions k).isSome →
      ((updateGroup st gid updates mutId t).db.promptVersions k).isSome) ∧
    ((st.db.groups k).isSome →
      ((updateGroup st gid updates mutId t).db.groups k).isSome) := by
  unfold updateGroup
  cases hm : st.store.groups gid with
  | none =>
    exact ⟨fun h => h, fun h => h, fun h => h, fun h => h, fun h => h, fun h => h⟩
  | some e =>
    exact ⟨fun h => h, fun h => h, fun h => mapSet_isSome _ _ _ _ h,
      fun h => h, fun h => h, fun h => mapSet_isSome _ _ _ _ h⟩

/-- Claim C4, counterexample: The claim says no operation other than
`clearAll` ever physically removes an entity record from the view. On
`clientSoftDeletedA` — prompt `A` soft-deleted but present in both the
view and the durable store — `_hydrateFromIndexedDB` rebuilds the view
from the active records only, so prompt `A` disappears from the view's
prompt map while remaining in the durable store. -/
theorem c4_hydrate_removes_from_view_counterexample :
    (clientSoftDeletedA.store.prompts "A").isSome = true ∧
    (clientSoftDeletedA.db.prompts "A").isSome = true ∧
    (applyClientOp clientSoftDeletedA (.hydrate true)).store.prompts "A" = none ∧
    ((applyClientOp clientSoftDeletedA (.hydrate true)).db.prompts "A").isSome = true := by
  decide

/-- Claim C4, amended: A delete applied by any path — local
`deletePrompt`/`deleteGroup`, or a server delta's `deleted` ids applied
to view and durable store — only sets the soft-deleted flag on an
existing record, and every entity operation other than
`_hydrateFromIndexedDB` (and `clearAll`) preserves every record of every
view map and durable table. Hydrate still never removes anything from
the durable store — its durable side is untouched — but it rebuilds the
view from the durable store's *active* records: a durable record
reappears in the view exactly when its soft-deleted flag is clear, so
soft-deleted records are dropped from the view maps. -/
theorem c4_delete_only_flags_amended :
    (∀ (st : ClientState) (op : ClientOp), op.isHydrate = false →
      preservesEntityDomains st (applyClientOp st op)) ∧
    (∀ (st : ClientState) (online : Bool),
      (applyClientOp st (.hydrate online)).db = st.db) ∧
    (∀ (st : ClientState) (online : Bool) (k : String) (e : PromptEntity),
      st.db.prompts k = some e →
      (applyClientOp st (.hydrate online)).store.prompts k =
        if e.isDeleted then none else some e) ∧
    (∀ (st : ClientState) (online : Bool) (k : String) (e : PromptVersionEntity),
      st.db.promptVersions k = some e →
      (applyClientOp st (.hydrate online)).store.promptVersions k =
        if e.isDeleted then none else some e) ∧
    (∀ (st : ClientState) (online : Bool) (k : String) (e : GroupEntity),
      st.db.groups k = some e →
      (applyClientOp st (.hydrate online)).store.groups k =
        if e.isDeleted then none else some e) ∧
    (∀ (st : ClientState) (id mutId t k : String),
      (deletePrompt st id mutId t).store.prompts k =
        (if k = id then
          (st.store.prompts id).map fun e => { e with isDeleted := true, updatedAt := t }
        else st.store.prompts k) ∧
      (deletePrompt st id mutId t).db.prompts k =
        (if k = id then
          (st.db.prompts id).map fun e => { e with isDeleted := true, updatedAt := t }
        else st.db.prompts k)) ∧
    (∀ (st : ClientState) (id mutId t k : String),
      (deleteGroup st id mutId t).store.groups k =
        (if k = id then
          (st.store.groups id).map fun e => { e with isDeleted := true, updatedAt := t }
        else st.store.groups k) ∧
      (deleteGroup st id mutId t).db.groups k =
        (if k = id then
          (st.db.groups id).map fun e => { e with isDeleted := true, updatedAt := t }
        else st.db.groups k)) ∧
    (∀ (m : EMap PromptEntity) (ids : List String) (k : String),
      applyDeletes PromptEntity.flagDeleted m ids k =
        match m k with
        | some e => if k ∈ ids then some e.flagDeleted else some e
        | none => none) ∧
    (∀ (m : EMap PromptVersionEntity) (ids : List String) (k : String),
      applyDeletes PromptVersionEntity.flagDeleted m ids k =
        match m k with
        | some e => if k ∈ ids then some e.flagDeleted else some e
        | none => none) ∧
    (∀ (m : EMap GroupEntity) (ids : List String) (k : String),
      applyDeletes GroupEntity.flagDeleted m ids k =
        match m k with
        | some e => if k ∈ ids then some e.flagDeleted else some e
        | none => none) := by
  refine ⟨?_, ?_, ?_, ?_, ?_, ?_, ?_, ?_, ?_, ?_⟩
  · intro st op hnh
    unfold preservesEntityDomains
    intro k
    cases op with
    | createPrompt data newId mutId t =>
      exact ⟨fun h => mapSet_isSome _ _ _ _ h, fun h => h, fun h => h,
        fun h => mapSet_isSome _ _ _ _ h, fun h => h, fun h => h⟩
    | updatePrompt pid updates mutId t =>
      exact updatePrompt_preserves st pid updates mutId t k
    | deletePrompt pid mutId t =>
      exact ⟨fun h => updateIfPresent_isSome _ _ _ _ h, fun h => h, fun h => h,
        fun h => updateIfPresent_isSome _ _ _ _ h, fun h => h, fun h => h⟩
    | createPromptVersion data newId mutId t =>
      exact ⟨fun h => h, fun h => mapSet_isSome _ _ _ _ h, fun h => h,
        fun h => h, fun h => mapSet_isSome _ _ _ _ h, fun h => h⟩
    | createGroup data newId mutId t =>
      exact ⟨fun h => h, fun h => h, fun h => mapSet_isSome _ _ _ _ h,
        fun h => h, fun h => h, fun h => mapSet_isSome _ _ _ _ h⟩
    | updateGroup gid updates mutId t =>
      exact updateGroup_preserves st gid updates mutId t k
    | deleteGroup gid mutId t =>
      exact ⟨fun h => h, fun h => h, fun h => updateIfPresent_isSome _ _ _ _ h,
        fun h => h, fun h => h, fun h => updateIfPresent_isSome _ _ _ _ h⟩
    | applyServerChanges p freshUuid =>
      exact ⟨fun h => applyKind_isSome _ _ promptFlag_idem _ _ _ _ _ h,
        fun h => applyKind_isSome _ _ versionFlag_idem _ _ _ _ _ h,
        fun h => applyKind_isSome _ _ groupFlag_idem _ _ _ _ _ h,
        fun h => applyKind_isSome _ _ promptFlag_idem _ _ _ _ _ h,
        fun h => applyKind_isSome _ _ versionFlag_idem _ _ _ _ _ h,
        fun h => applyKind_isSome _ _ groupFlag_idem _ _ _ _ _ h⟩
    | hydrate online => simp [ClientOp.isHydrate] at hnh
  · intro st online
    rfl
  · intro st online k e hdb
    simp [applyClientOp, hydrateFromIndexedDB, activeOnly, hdb]
  · intro st online k e hdb
    simp [applyClientOp, hydrateFromIndexedDB, activeOnly, hdb]
  · intro st online k e hdb
    simp [applyClientOp, hydrateFromIndexedDB, activeOnly, hdb]
  · intro st id mutId t k
    exact ⟨updateIfPresent_eq st.store.prompts id _ k, updateIfPresent_eq st.db.prompts id _ k⟩
  · intro st id mutId t k
    exact ⟨updateIfPresent_eq st.store.groups id _ k, updateIfPresent_eq st.db.groups id _ k⟩
  · intro m ids k
    rw [applyDeletes_eq _ promptFlag_idem]
    cases m k <;> rfl
  · intro m ids k
    rw [applyDeletes_eq _ versionFlag_idem]
    cases m k <;> rfl
  · intro m ids k
    rw [applyDeletes_eq _ groupFlag_idem]
    cases m k <;> rfl

/-- Witness for C4 (amended): deleting the existing prompt `A` keeps its
record present in the view, and hydrating `clientSoftDeletedA` gives the
view the active-filter of the flagged durable record. -/
theorem c4_delete_only_flags_amended_witness :
    ((applyClientOp clientWithPromptA
      (.deletePrompt "A" "m1" "T")).store.prompts "A").isSome ∧
    (applyClientOp clientSoftDeletedA (.hydrate true)).store.prompts "A" =
      (if flaggedPromptA.isDeleted then none else some flaggedPromptA) :=
  ⟨(c4_delete_only_flags_amended.1 clientWithPromptA
      (.deletePrompt "A" "m1" "T") rfl "A").1 (by decide),
    c4_delete_only_flags_amended.2.2.1 clientSoftDeletedA true "A"
      flaggedPromptA (by decide)⟩

end PromptManager
